import Mathlib

/-!
Verification development for the PocketFlow website chatbot.

Python strings are modelled as `List Char`; Python dicts keyed by integers
as association lists; the fetcher, LLM oracle and subprocess collaborators
as explicit outcome values passed to the embedded functions.  Machine
integers do not overflow in any of the modelled code paths, so indices are
`Nat` and process return codes are `Int`.
-/

namespace PF

/-- Characters of a Lean string literal, used to transcribe Python string
literals. -/
def strL (s : String) : List Char := s.data

/-- Python regex `\w` on ASCII text: letters, digits and underscore. -/
def isWordChar (c : Char) : Bool := c.isAlphanum || c == '_'

/-- Python regex `\s` / `str.strip` whitespace on ASCII text. -/
def isSpaceChar (c : Char) : Bool :=
  c == ' ' || c == '\t' || c == '\n' || c == '\r' || c == '\x0b' || c == '\x0c'

/-- Word-character test on an optional character; out of range counts as
non-word, as at the ends of a string in Python `re`. -/
def wordAt : Option Char → Bool
  | none => false
  | some c => isWordChar c

/-- Python regex `\b`: a word boundary lies between two adjacent positions
whose word-character status differs. -/
def bndB (a b : Option Char) : Bool := wordAt a != wordAt b

/-- Match a literal character sequence at the head of the input, returning
the remainder on success. -/
def matchLit : List Char → List Char → Option (List Char)
  | [], l => some l
  | _ :: _, [] => none
  | c :: w, d :: l => if c == d then matchLit w l else none

/-- Python `s.startswith(p)`. -/
def lstarts (l p : List Char) : Bool := (matchLit p l).isSome

/-- Python substring test `p in l`. -/
def lcontains : List Char → List Char → Bool
  | [], sub => sub.isEmpty
  | c :: t, sub => lstarts (c :: t) sub || lcontains t sub

/-- Python `s.endswith(p)`. -/
def lends (l p : List Char) : Bool := lstarts l.reverse p.reverse

/-- Python `s.lower()` on ASCII text. -/
def lowerL (l : List Char) : List Char := l.map Char.toLower

/-- Regex `\s+` followed by a token that cannot start with whitespace:
require at least one whitespace character and consume the maximal run. -/
def ws1 : List Char → Option (List Char)
  | [] => none
  | c :: l => if isSpaceChar c then some (l.dropWhile isSpaceChar) else none

/-- Regex `\s*` followed by a token that cannot start with whitespace. -/
def ws0 (l : List Char) : List Char := l.dropWhile isSpaceChar

/-- Regex `.*` (no newline) followed by the continuation `k`: some prefix
free of newlines is consumed and `k` accepts the rest. -/
def dotStarThen (k : List Char → Bool) : List Char → Bool
  | [] => k []
  | c :: l => k (c :: l) || (c != '\n' && dotStarThen k l)

/-- Try a position-matcher at every position of the string, tracking the
previous character for word-boundary tests: Python `re.search`. -/
def searchFrom (p : Option Char → List Char → Bool) : Option Char → List Char → Bool
  | prev, [] => p prev []
  | prev, c :: l => p prev (c :: l) || searchFrom p (some c) l

/-- Python `re.search(pattern, s)` as a Boolean. -/
def reSearch (p : Option Char → List Char → Bool) (s : List Char) : Bool :=
  searchFrom p none s

/-- Matcher for a regex of the form `\bWORD\b` (the word may itself start
or end with non-word characters; the boundary test is the generic one). -/
def patWord (w : List Char) (prev : Option Char) (l : List Char) : Bool :=
  bndB prev l.head? &&
    match matchLit w l with
    | some r => bndB w.getLast? r.head?
    | none => false

/-- Matcher for `\brm\s+(-rf\s+)?/`. -/
def patRm (prev : Option Char) (l : List Char) : Bool :=
  bndB prev l.head? &&
    match matchLit (strL "rm") l with
    | none => false
    | some r1 =>
      match ws1 r1 with
      | none => false
      | some r2 =>
        (match matchLit (strL "-rf") r2 with
         | some r3 =>
           match ws1 r3 with
           | some r4 => (matchLit (strL "/") r4).isSome
           | none => false
         | none => false)
        || (matchLit (strL "/") r2).isSome

/-- Matcher for `>\s*/dev/`. -/
def patDevWrite (_prev : Option Char) (l : List Char) : Bool :=
  match matchLit (strL ">") l with
  | some r => (matchLit (strL "/dev/") (ws0 r)).isSome
  | none => false

/-- Matcher for `\bchmod\s+777`. -/
def patChmod (prev : Option Char) (l : List Char) : Bool :=
  bndB prev l.head? &&
    match matchLit (strL "chmod") l with
    | some r1 =>
      match ws1 r1 with
      | some r2 => (matchLit (strL "777") r2).isSome
      | none => false
    | none => false

/-- Matcher for `\bWORD\b.*\|\s*sh` (the wget / curl pipe-to-shell rules). -/
def patPipeSh (w : List Char) (prev : Option Char) (l : List Char) : Bool :=
  bndB prev l.head? &&
    match matchLit w l with
    | some r1 =>
      bndB w.getLast? r1.head? &&
        dotStarThen
          (fun l2 =>
            match matchLit (strL "|") l2 with
            | some r2 => (matchLit (strL "sh") (ws0 r2)).isSome
            | none => false)
          r1
    | none => false

/-- Matcher for the fork-bomb rule `:\(\)\{.*\}:`. -/
def patForkBomb (_prev : Option Char) (l : List Char) : Bool :=
  match matchLit (strL ":()\x7b") l with
  | some r => dotStarThen (fun l2 => (matchLit (strL "\x7d:") l2).isSome) r
  | none => false

/-- Matcher for `\bkill\s+-9`. -/
def patKill9 (prev : Option Char) (l : List Char) : Bool :=
  bndB prev l.head? &&
    match matchLit (strL "kill") l with
    | some r1 =>
      match ws1 r1 with
      | some r2 => (matchLit (strL "-9") r2).isSome
      | none => false
    | none => false

/-- Matcher for `\bdd\s+if=`. -/
def patDd (prev : Option Char) (l : List Char) : Bool :=
  bndB prev l.head? &&
    match matchLit (strL "dd") l with
    | some r1 =>
      match ws1 r1 with
      | some r2 => (matchLit (strL "if=") r2).isSome
      | none => false
    | none => false

/-- The `ShellExecutor.blocked_patterns` deny-list: each matcher paired
with the source text of the corresponding regular expression, which is
interpolated into the rejection reason. -/
def blocked_patterns : List ((Option Char → List Char → Bool) × List Char) :=
  [ (patRm, strL "\\brm\\s+(-rf\\s+)?/"),
    (patWord (strL "sudo"), strL "\\bsudo\\b"),
    (patWord (strL "su"), strL "\\bsu\\b"),
    (patDevWrite, strL ">\\s*/dev/"),
    (patChmod, strL "\\bchmod\\s+777"),
    (patPipeSh (strL "wget"), strL "\\bwget\\b.*\\|\\s*sh"),
    (patPipeSh (strL "curl"), strL "\\bcurl\\b.*\\|\\s*sh"),
    (patForkBomb, strL ":\\(\\)\\\x7b.*\\\x7d:"),
    (patKill9, strL "\\bkill\\s+-9"),
    (patWord (strL "pkill"), strL "\\bpkill\\b"),
    (patWord (strL "mkfs"), strL "\\bmkfs\\b"),
    (patDd, strL "\\bdd\\s+if="),
    (patWord (strL "/etc/passwd"), strL "\\b/etc/passwd\\b"),
    (patWord (strL "/etc/shadow"), strL "\\b/etc/shadow\\b") ]

/-- First deny-list entry matching the (lower-cased) command, if any. -/
def findBlocked : List ((Option Char → List Char → Bool) × List Char) → List Char → Option (List Char)
  | [], _ => none
  | (p, src) :: ps, cmd => if reSearch p cmd then some src else findBlocked ps cmd

/-- Python `s.count(c)` for a single character. -/
def countChar (l : List Char) (c : Char) : Nat := (l.filter (fun d => d == c)).length

/-- `ShellExecutor.is_command_safe`: deny-list scan on the lower-cased
command, then the length cap and the separator-count caps. -/
def is_command_safe (command : List Char) : Bool × List Char :=
  let command_lower := lowerL command
  match findBlocked blocked_patterns command_lower with
  | some src => (false, strL "Blocked dangerous pattern: " ++ src)
  | none =>
    if command.length > 5000 then (false, strL "Command too long")
    else if countChar command ';' > 10 || countChar command '|' > 10 then
      (false, strL "Too many command separators")
    else (true, strL "Command appears safe")

/-- The result dict shape shared by all executor entry points. -/
structure ExecResult where
  success : Bool
  stdout : List Char
  stderr : List Char
  return_code : Int
  execution_time : Nat
deriving DecidableEq

/-- Signals sent to the spawned process group via `os.killpg`. -/
inductive Sig
  | sigterm
  | sigkill
deriving DecidableEq

/-- An executor invocation together with the observable side effects the
claims speak about: the signals sent and whether a process was spawned. -/
structure ExecRun where
  result : ExecResult
  signals : List Sig
  spawned : Bool
deriving DecidableEq

/-- `ShellExecutor.__init__` configuration. -/
structure ShellExecutor where
  timeout : Nat
  max_output_size : Nat
deriving DecidableEq

/-- Behaviour of the spawned subprocess, supplied by the operating-system
collaborator: normal completion, timeout with exit during the 5-second
grace period after SIGTERM, timeout surviving the grace period, or an
unexpected exception raised inside the `try` block. -/
inductive ProcOutcome
  | completed (stdout stderr : List Char) (code : Int) (elapsed : Nat)
  | timeoutExit (stdout stderr : List Char) (elapsed : Nat)
  | timeoutKilled (elapsed : Nat)
  | raised (msg : List Char) (elapsed : Nat)
deriving DecidableEq

/-- Output capping applied to captured stdout / stderr. -/
def capOut (maxsz : Nat) (out marker : List Char) : List Char :=
  if out.length > maxsz then out.take maxsz ++ marker else out

/-- The result dict built at the end of the `try` block of
`execute_shell_command`: success is the real exit code compared with 0,
and both streams are capped. -/
def mkShellResult (ex : ShellExecutor) (out err : List Char) (code : Int) (t : Nat) : ExecResult :=
  { success := code == 0,
    stdout := capOut ex.max_output_size out (strL "\n... [Output truncated]"),
    stderr := capOut ex.max_output_size err (strL "\n... [Error output truncated]"),
    return_code := code,
    execution_time := t }

/-- `ShellExecutor.execute_shell_command`: the safety gate, then the
subprocess paths.  A rejected command returns the fixed refusal dict and
never reaches `subprocess.Popen`; on timeout the process group receives
SIGTERM and, if it survives the grace period, SIGKILL, with the return
code forced to `-1`. -/
def execute_shell_command (ex : ShellExecutor) (outcome : ProcOutcome) (command : List Char) : ExecRun :=
  let sc := is_command_safe command
  if sc.1 then
    match outcome with
    | .completed out err code t =>
      { result := mkShellResult ex out err code t, signals := [], spawned := true }
    | .timeoutExit out err t =>
      { result := mkShellResult ex out err (-1) t, signals := [.sigterm], spawned := true }
    | .timeoutKilled t =>
      { result := mkShellResult ex [] (strL "Process killed due to timeout") (-1) t,
        signals := [.sigterm, .sigkill], spawned := true }
    | .raised m t =>
      { result := { success := false, stdout := [],
                    stderr := strL "Execution error: " ++ m,
                    return_code := -1, execution_time := t },
        signals := [], spawned := true }
  else
    { result := { success := false, stdout := [],
                  stderr := strL "Command blocked for security: " ++ sc.2,
                  return_code := -1, execution_time := 0 },
      signals := [], spawned := false }

/-- Python `str.strip()` on ASCII text: drop leading whitespace, then
trailing whitespace. -/
def dropTrailingWs : List Char → List Char
  | [] => []
  | c :: t =>
    match dropTrailingWs t with
    | [] => if isSpaceChar c then [] else [c]
    | r => c :: r

/-- Python `str.strip()`. -/
def pyStrip (l : List Char) : List Char := dropTrailingWs (l.dropWhile isSpaceChar)

/-- Python `s.split('\n')`. -/
def pySplitNl : List Char → List (List Char)
  | [] => [[]]
  | c :: t =>
    if c == '\n' then [] :: pySplitNl t
    else
      match pySplitNl t with
      | [] => [[c]]
      | h :: r => (c :: h) :: r

/-- The fixed deny-list of modules scanned for in generated Python code. -/
def dangerous_imports : List (List Char) :=
  [strL "os", strL "sys", strL "subprocess", strL "shutil",
   strL "glob", strL "socket", strL "urllib", strL "http"]

/-- One line of the lexical scan in `execute_python_code`: strip the
line, and on an `import ` / `from ` line return the first deny-listed
module occurring as a substring. -/
def scanImportLine (line : List Char) : Option (List Char) :=
  let l := pyStrip line
  if lstarts l (strL "import ") || lstarts l (strL "from ") then
    dangerous_imports.find? (fun d => lcontains l d)
  else none

/-- The whole line-by-line scan; the first flagged line wins. -/
def importScan : List (List Char) → Option (List Char)
  | [] => none
  | ln :: rest =>
    match scanImportLine ln with
    | some d => some d
    | none => importScan rest

/-- `ShellExecutor.execute_python_code`.  The `safe_globals` dict and the
`data_context` merge are built by the source but never consulted by the
subprocess execution path, so they carry no behaviour; writing the code
to a temporary file is the filesystem collaborator, modelled by the
`tempFile` name.  An accepted script runs through
`execute_shell_command` on `python3 <tempFile>`. -/
def execute_python_code (ex : ShellExecutor) (tempFile : List Char) (outcome : ProcOutcome) (code : List Char) : ExecRun :=
  match importScan (pySplitNl code) with
  | some d =>
    { result := { success := false, stdout := [],
                  stderr := strL "Dangerous import blocked: " ++ d,
                  return_code := -1, execution_time := 0 },
      signals := [], spawned := false }
  | none => execute_shell_command ex outcome (strL "python3 " ++ tempFile)

/-- Module-level `execute_code`: dispatch on the lower-cased language
name, with a fixed refusal dict for any unsupported language. -/
def execute_code (timeout : Nat) (tempFile : List Char) (outcome : ProcOutcome) (code language : List Char) : ExecRun :=
  let executor : ShellExecutor := { timeout := timeout, max_output_size := 10000 }
  if lowerL language == strL "python" then
    execute_python_code executor tempFile outcome code
  else if [strL "bash", strL "shell", strL "sh"].contains (lowerL language) then
    execute_shell_command executor outcome code
  else
    { result := { success := false, stdout := [],
                  stderr := strL "Unsupported language: " ++ language,
                  return_code := -1, execution_time := 0 },
      signals := [], spawned := false }

/-! ### Magic word detector (`utils/magic_word_detector.py`) -/

/-- The default trigger vocabulary of `MagicWordDetector`. -/
def magic_words : List (List Char) :=
  [strL "EXECUTE", strL "RUN_CODE", strL "CODE_EXEC", strL "SHELL_EXEC",
   strL "PYTHON_EXEC", strL "ANALYZE_DATA", strL "PROCESS_DATA",
   strL "COMPUTE", strL "CALCULATE"]

/-- Case-insensitive literal match at the head of the input (the trigger
patterns are compiled with `re.IGNORECASE`). -/
def matchCaseless : List Char → List Char → Option (List Char)
  | [], l => some l
  | _ :: _, [] => none
  | wc :: w, c :: l => if Char.toLower c == Char.toLower wc then matchCaseless w l else none

/-- Try to match `\bWORD\b` (case-insensitive) at the current position;
on success return the rest of the input together with the last original
character of the matched region (the boundary context for the scan that
continues after the match). -/
def tryWordHere (w : List Char) (prev : Option Char) (l : List Char) : Option (List Char × Option Char) :=
  if w.isEmpty then none
  else if bndB prev l.head? then
    match matchCaseless w l with
    | some rest =>
      if bndB (l.take w.length).getLast? rest.head? then
        some (rest, (l.take w.length).getLast?)
      else none
    | none => none
  else none

/-- `pattern.sub('', text)` for a `\bWORD\b` pattern: left-to-right
non-overlapping removal.  The fuel starts at the text length and is never
exhausted because every step consumes at least one character. -/
def subWordFuel (w : List Char) : Nat → Option Char → List Char → List Char
  | 0, _, l => l
  | fuel + 1, prev, l =>
    match l with
    | [] => []
    | c :: rest =>
      match tryWordHere w prev (c :: rest) with
      | some (rest2, lastc) => subWordFuel w fuel lastc rest2
      | none => c :: subWordFuel w fuel (some c) rest

/-- `pattern.sub('', text)` for the trigger pattern of `w`. -/
def subWord (w l : List Char) : List Char := subWordFuel w l.length none l

/-- `len(pattern.findall(text))` for a `\bWORD\b` pattern: the number of
left-to-right non-overlapping occurrences. -/
def countWordFuel (w : List Char) : Nat → Option Char → List Char → Nat
  | 0, _, _ => 0
  | fuel + 1, prev, l =>
    match l with
    | [] => 0
    | c :: rest =>
      match tryWordHere w prev (c :: rest) with
      | some (rest2, lastc) => countWordFuel w fuel lastc rest2 + 1
      | none => countWordFuel w fuel (some c) rest

/-- Number of occurrences of the trigger pattern of `w` in `l`. -/
def countWord (w l : List Char) : Nat := countWordFuel w l.length none l

/-- `re.sub(r'\s+', ' ', text)`: every maximal whitespace run becomes a
single space (a run is collapsed by dropping each whitespace character
that is followed by another one, and mapping the survivor to a space). -/
def collapseWs : List Char → List Char
  | [] => []
  | [c] => [if isSpaceChar c then ' ' else c]
  | a :: b :: t =>
    if isSpaceChar a && isSpaceChar b then collapseWs (b :: t)
    else (if isSpaceChar a then ' ' else a) :: collapseWs (b :: t)

/-- The per-word loop of `MagicWordDetector.detect_magic_words`: counting
is done on the original text, the removal is applied to the accumulated
cleaned text, and both happen only when the word occurs at all. -/
def detectLoop (text : List Char) : List (List Char) → List Char → List (List Char) × List Char
  | [], cleaned => ([], cleaned)
  | w :: ws, cleaned =>
    let n := countWord w text
    if n = 0 then detectLoop text ws cleaned
    else
      let r := detectLoop text ws (subWord w cleaned)
      (List.replicate n w ++ r.1, r.2)

/-- `MagicWordDetector.detect_magic_words`: returns the trigger flag, the
detected words (repeats counted) and the cleaned text with whitespace
collapsed and stripped. -/
def detect_magic_words (text : List Char) : Bool × List (List Char) × List Char :=
  let r := detectLoop text magic_words text
  (!r.1.isEmpty, r.1, pyStrip (collapseWs r.2))

/-- Adjacent pair of whitespace characters somewhere in the list. -/
def hasAdjWs : List Char → Bool
  | a :: b :: t => (isSpaceChar a && isSpaceChar b) || hasAdjWs (b :: t)
  | _ => false

/-! ### URL validator (`utils/url_validator.py`) -/

/-- Split at the first occurrence of `c`, if any. -/
def splitFirst (c : Char) : List Char → Option (List Char × List Char)
  | [] => none
  | d :: t =>
    if d == c then some ([], t)
    else
      match splitFirst c t with
      | some (a, b) => some (d :: a, b)
      | none => none

/-- Characters allowed in a URL scheme after the leading letter. -/
def isSchemeChar (c : Char) : Bool := c.isAlphanum || c == '+' || c == '-' || c == '.'

/-- Modelled from the scheme extraction of `urllib.parse.urlparse` (an
external standard-library collaborator): a valid scheme before the first
colon is split off and lower-cased, otherwise the scheme is empty. -/
def urlScheme (url : List Char) : List Char × List Char :=
  match splitFirst ':' url with
  | some (before, after) =>
    match before with
    | [] => ([], url)
    | c :: rest =>
      if c.isAlpha && rest.all isSchemeChar then (lowerL (c :: rest), after)
      else ([], url)
  | none => ([], url)

/-- Modelled from the netloc extraction of `urllib.parse.urlparse`: the
netloc follows a leading `//` and runs to the next `/`, `?` or `#`. -/
def urlNetloc (rest : List Char) : List Char :=
  match rest with
  | '/' :: '/' :: t => t.takeWhile (fun c => !(c == '/' || c == '?' || c == '#'))
  | _ => []

/-- The `(scheme, netloc)` pair of `urllib.parse.urlparse`, the only two
components the source consults. -/
def urlparseSN (url : List Char) : List Char × List Char :=
  let p := urlScheme url
  (p.1, urlNetloc p.2)

/-- `is_basic_valid_url`: proper http/https scheme and non-empty netloc. -/
def is_basic_valid_url (url : List Char) : Bool :=
  let p := urlparseSN url
  (p.1 == strL "http" || p.1 == strL "https") && !p.2.isEmpty

/-- `is_valid_url`: scheme/netloc check, then per-entry prefix matching
(for entries containing a protocol or a path separator) or domain-suffix
matching (otherwise), with a trailing port removed from the host. -/
def is_valid_url (url : List Char) (allowed : List (List Char)) : Bool :=
  let p := urlparseSN url
  if !(p.1 == strL "http" || p.1 == strL "https") || p.2.isEmpty then false
  else
    let url_lower := lowerL url
    let domain0 := lowerL p.2
    let domain :=
      match splitFirst ':' domain0 with
      | some (a, _) => a
      | none => domain0
    allowed.any (fun al =>
      let al_lower := lowerL al
      if lstarts al_lower (strL "http://") || lstarts al_lower (strL "https://")
          || lcontains al_lower (strL "/") then
        lstarts url_lower al_lower
      else
        domain == al_lower || lends domain (strL "." ++ al_lower))

/-- `filter_valid_urls`.  The argument is optional because the crawl
fallback hands this function `None` for the links of a failed fetch;
iterating over `None` raises a `TypeError` in Python, modelled as the
error branch. -/
def filter_valid_urls (urls : Option (List (List Char))) (allowed : List (List Char)) :
    Except (List Char) (List (List Char)) :=
  match urls with
  | none => .error (strL "TypeError: NoneType object is not iterable")
  | some us =>
    if allowed.isEmpty then .ok (us.filter is_basic_valid_url)
    else .ok (us.filter (fun u => is_valid_url u allowed))

/-! ### Answer synthesizer fence stripping (`DraftAnswer.exec`) -/

/-- First fence chain of the sanity check: the 3-character tagged
families.  The leading marker is removed whenever it is present; the
trailing marker only when the remainder ends with it. -/
def fenceStage1 (s : List Char) : List Char :=
  if lstarts s (strL "```markdown") then
    let s1 := s.drop (strL "```markdown").length
    if lends s1 (strL "```") then s1.take (s1.length - 3) else s1
  else if lstarts s (strL "~~~markdown") then
    let s1 := s.drop (strL "~~~markdown").length
    if lends s1 (strL "~~~") then s1.take (s1.length - 3) else s1
  else s

/-- Second fence chain, applied to the result of the first: 4-character
tagged backtick fences, then bare 3-character fences. -/
def fenceStage2 (s : List Char) : List Char :=
  if lstarts s (strL "````markdown") then
    let s1 := s.drop (strL "````markdown").length
    if lends s1 (strL "````") then s1.take (s1.length - 4) else s1
  else if lstarts s (strL "```") then
    let s1 := s.drop 3
    if lends s1 (strL "```") then s1.take (s1.length - 3) else s1
  else if lstarts s (strL "~~~") then
    let s1 := s.drop 3
    if lends s1 (strL "~~~") then s1.take (s1.length - 3) else s1
  else s

/-- The complete markdown-fence sanity check of `DraftAnswer.exec`:
strip, run both fence chains, strip again. -/
def draftAnswerStrip (answer : List Char) : List Char :=
  pyStrip (fenceStage2 (fenceStage1 (pyStrip answer)))

/-! ### Agent decision engine (`AgentDecision`) -/

/-- Decision tag `"answer"`. -/
def tagAnswer : List Char := strL "answer"

/-- Decision tag `"explore"`. -/
def tagExplore : List Char := strL "explore"

/-- Decision tag `"exec"`. -/
def tagExec : List Char := strL "exec"

/-- The validated decision handed from `AgentDecision.exec` to `post`. -/
structure DecisionResult where
  decision : List Char
  reasoning : List Char
  selected_urls : List Nat
deriving DecidableEq

/-- The slice of `AgentDecision.prep`'s output that the validation in
`exec` actually consults. -/
structure PrepData where
  unvisited_indices : List Nat
  visited_indices : List Nat
  max_urls_per_iteration : Nat
deriving DecidableEq

/-- Outcome of the oracle call as seen by `AgentDecision.exec`: the
`call_llm` call raised, the YAML reply failed to parse, or a parsed
mapping with its three optional fields (each `result.get` defaulted). -/
inductive OracleOutcome
  | callError (msg : List Char)
  | unparseable (msg : List Char)
  | parsed (decision : Option (List Char)) (reasoning : Option (List Char))
      (selected : Option (List Int))
deriving DecidableEq

/-- The candidate-filtering loop shared by all three decision branches:
keep, in the order given, the candidates present in `allowed`.  Raw
candidates are YAML integers; survivors are indices into the registry. -/
def validateSelected (raw : List Int) (allowed : List Nat) : List Nat :=
  match raw with
  | [] => []
  | idx :: rest =>
    if (allowed.map (fun n => (n : Int))).contains idx then
      idx.toNat :: validateSelected rest allowed
    else validateSelected rest allowed

/-- Explore validation: cap the raw candidates at
`max_urls_per_iteration` first, then filter against the unvisited set. -/
def validateExplore (raw : List Int) (cap : Nat) (unvisited : List Nat) : List Nat :=
  validateSelected (raw.take cap) unvisited

/-- `AgentDecision.exec` after the oracle call, as a fallible
computation: the tag check and the per-branch candidate validation, with
each `assert` modelled as an error. -/
def agentDecisionExec (p : PrepData) (o : OracleOutcome) : Except (List Char) DecisionResult :=
  match o with
  | .callError m => .error m
  | .unparseable m => .error m
  | .parsed dec reas sel =>
    let decision := dec.getD tagAnswer
    let reasoning := reas.getD []
    let selected := sel.getD []
    if !([tagAnswer, tagExplore, tagExec].contains decision) then
      .error (strL "Invalid decision: " ++ decision)
    else if decision == tagExplore then
      let valid := validateExplore selected p.max_urls_per_iteration p.unvisited_indices
      if valid.isEmpty then
        .error (strL "Explore decision made, but no valid URLs were selected to process.")
      else .ok { decision := decision, reasoning := reasoning, selected_urls := valid }
    else if decision == tagAnswer then
      .ok { decision := decision, reasoning := reasoning,
            selected_urls := validateSelected selected p.visited_indices }
    else
      .ok { decision := decision, reasoning := reasoning,
            selected_urls := validateSelected selected p.visited_indices }

/-- `AgentDecision.exec_fallback`'s fixed decision. -/
def agentDecisionFallback : DecisionResult :=
  { decision := tagAnswer,
    reasoning := strL "Exploration failed, proceeding to answer",
    selected_urls := [] }

/-- The pocketflow node wrapper: `exec` retried on a fixed oracle outcome
fails identically every time, after which `exec_fallback`'s value is used
in its place. -/
def agentExecWithFallback (p : PrepData) (o : OracleOutcome) : DecisionResult :=
  match agentDecisionExec p o with
  | .ok r => r
  | .error _ => agentDecisionFallback

/-! ### Session state and orchestration steps -/

/-- Dict update keyed by a registry index. -/
def setAssoc {α : Type} : List (Nat × α) → Nat → α → List (Nat × α)
  | [], k, v => [(k, v)]
  | (k0, v0) :: t, k, v =>
    if k0 == k then (k, v) :: t else (k0, v0) :: setAssoc t k v

/-- Dict lookup keyed by a registry index. -/
def getAssoc {α : Type} : List (Nat × α) → Nat → Option α
  | [], _ => none
  | (k0, v0) :: t, k => if k0 == k then some v0 else getAssoc t k

/-- Python `set.add`. -/
def addSet (l : List Nat) (x : Nat) : List Nat :=
  if l.contains x then l else l ++ [x]

/-- The fields of the shared per-session dict that the modelled
operations read or write. -/
structure SessionState where
  all_discovered_urls : List (List Char)
  url_content : List (Nat × List Char)
  visited_urls : List Nat
  url_graph : List (Nat × List Nat)
  urls_to_process : List Nat
  current_iteration : Nat
  useful_visited_indices : List Nat
  decision_reasoning : List Char
  allowed_domains : List (List Char)
  content_max_chars : Nat
  max_links_per_page : Nat
  max_urls_per_iteration : Nat
deriving DecidableEq

/-- Caller-supplied configuration knobs. -/
structure SessionConfig where
  allowed_domains : List (List Char)
  content_max_chars : Nat
  max_links_per_page : Nat
  max_urls_per_iteration : Nat
deriving DecidableEq

/-- The shared dict as `main.py` / `server.py` initialise it: the start
URLs are the registry, nothing is visited, and the whole registry is the
first pending-crawl batch. -/
def initState (start_urls : List (List Char)) (cfg : SessionConfig) : SessionState :=
  { all_discovered_urls := start_urls,
    url_content := [],
    visited_urls := [],
    url_graph := [],
    urls_to_process := List.range start_urls.length,
    current_iteration := 0,
    useful_visited_indices := [],
    decision_reasoning := [],
    allowed_domains := cfg.allowed_domains,
    content_max_chars := cfg.content_max_chars,
    max_links_per_page := cfg.max_links_per_page,
    max_urls_per_iteration := cfg.max_urls_per_iteration }

/-- Per-turn reset (`server.py` / `main.py` between questions). -/
def resetTurn (s : SessionState) : SessionState :=
  { s with current_iteration := 0, urls_to_process := [] }

/-- `CrawlAndExtract.prep`: pair each pending index below the registry
size with its URL. -/
def crawlPrep (s : SessionState) : List (Nat × List Char) :=
  s.urls_to_process.filterMap (fun i =>
    if i < s.all_discovered_urls.length then
      some (i, s.all_discovered_urls.getD i [])
    else none)

/-- Per-item result of the page-fetcher collaborator. -/
inductive FetchOutcome
  | success (content : List Char) (links : List (List Char))
  | failure
deriving DecidableEq

/-- The batch exec results handed to `CrawlAndExtract.post`: each prep
pair runs through `exec` (echoing its index) or, when the fetch raised,
through `exec_fallback`, which substitutes the placeholder content and
`None` links. -/
def crawlBatchResults (s : SessionState) (outs : List FetchOutcome) :
    List (Nat × List Char × Option (List (List Char))) :=
  List.zipWith
    (fun (p : Nat × List Char) o =>
      match o with
      | FetchOutcome.success c ls => (p.1, c, some ls)
      | FetchOutcome.failure => (p.1, strL "Error crawling page", none))
    (crawlPrep s) outs

/-- Content truncation with the explicit original-length marker. -/
def truncContent (maxc : Nat) (content : List Char) : List Char :=
  if content.length > maxc then
    content.take maxc ++ strL "\n... [Content truncated - original length: "
      ++ strL (toString content.length) ++ strL " chars]"
  else content.take maxc

/-- First index of `x` in the registry (Python `list.index`; only called
when `x` is present). -/
def lfindIdx : List (List Char) → List Char → Nat
  | [], _ => 0
  | u :: t, x => if u == x then 0 else lfindIdx t x + 1

/-- The link-registration loop of `CrawlAndExtract.post`: append each
unseen URL to the registry and collect the (first-occurrence) index of
every link in order. -/
def registerLinks : List (List Char) → List (List Char) → List (List Char) × List Nat
  | reg, [] => (reg, [])
  | reg, l :: ls =>
    let reg2 := if reg.contains l then reg else reg ++ [l]
    let idx := lfindIdx reg2 l
    let r := registerLinks reg2 ls
    (r.1, idx :: r.2)

/-- One iteration of the result loop of `CrawlAndExtract.post`.  The
content write and the visited mark happen first; passing `None` links of
a failed item to `filter_valid_urls` then raises, leaving the state
partially mutated (no graph entry for the item). -/
def crawlProcessItem (s : SessionState) (item : Nat × List Char × Option (List (List Char))) :
    Except (List Char × SessionState) SessionState :=
  let url_idx := item.1
  let content := item.2.1
  let links := item.2.2
  let truncated := truncContent s.content_max_chars content
  let s1 := { s with url_content := setAssoc s.url_content url_idx truncated,
                     visited_urls := addSet s.visited_urls url_idx }
  match filter_valid_urls links s1.allowed_domains with
  | .error msg => .error (msg, s1)
  | .ok valid0 =>
    let valid :=
      if valid0.length > s.max_links_per_page then valid0.take s.max_links_per_page
      else valid0
    let r := registerLinks s1.all_discovered_urls valid
    .ok { s1 with all_discovered_urls := r.1,
                  url_graph := setAssoc s1.url_graph url_idx r.2 }

/-- The result loop of `CrawlAndExtract.post`; an uncaught exception
aborts the loop and surfaces with the state mutated so far. -/
def crawlPostLoop : SessionState → List (Nat × List Char × Option (List (List Char))) →
    SessionState × Option (List Char)
  | s, [] => (s, none)
  | s, it :: rest =>
    match crawlProcessItem s it with
    | .ok s2 => crawlPostLoop s2 rest
    | .error (msg, s2) => (s2, some msg)

/-- `CrawlAndExtract.post`: run the result loop; only a completed loop
reaches the line clearing the pending-crawl list. -/
def crawlPost (s : SessionState) (items : List (Nat × List Char × Option (List (List Char)))) :
    SessionState × Option (List Char) :=
  match crawlPostLoop s items with
  | (s2, none) => ({ s2 with urls_to_process := [] }, none)
  | (s2, some m) => (s2, some m)

/-- The projection of `AgentDecision.prep` consumed by the validation:
unvisited indices in ascending order, the visited indices, and the
per-iteration cap. -/
def agentPrepOf (s : SessionState) : PrepData :=
  { unvisited_indices :=
      (List.range s.all_discovered_urls.length).filter
        (fun i => !s.visited_urls.contains i),
    visited_indices := s.visited_urls,
    max_urls_per_iteration := s.max_urls_per_iteration }

/-- `AgentDecision.post`: store the decision's outputs and return the
transition action; only the explore branch touches the iteration
counter. -/
def agentDecisionPost (s : SessionState) (r : DecisionResult) : SessionState × Option (List Char) :=
  if r.decision == tagAnswer then
    ({ s with useful_visited_indices := r.selected_urls,
              decision_reasoning := r.reasoning }, some tagAnswer)
  else if r.decision == tagExplore then
    ({ s with urls_to_process := r.selected_urls,
              current_iteration := s.current_iteration + 1 }, some tagExplore)
  else if r.decision == tagExec then
    ({ s with useful_visited_indices := r.selected_urls,
              decision_reasoning := r.reasoning }, some tagExec)
  else (s, none)

/-- Session states reachable through the orchestration loop: the initial
state, completed or aborted crawl batches, decision transitions through
the validated (or fallback) oracle pipeline, and per-turn resets. -/
inductive Reachable : SessionState → Prop
  | init (start_urls : List (List Char)) (cfg : SessionConfig) :
      Reachable (initState start_urls cfg)
  | crawl (s : SessionState) (outs : List FetchOutcome) :
      Reachable s → Reachable (crawlPost s (crawlBatchResults s outs)).1
  | agent (s : SessionState) (o : OracleOutcome) :
      Reachable s →
      Reachable (agentDecisionPost s (agentExecWithFallback (agentPrepOf s) o)).1
  | reset (s : SessionState) : Reachable s → Reachable (resetTurn s)

/-- The registry/visited/graph invariants of the session state. -/
def SessionInv (s : SessionState) : Prop :=
  (∀ i ∈ s.visited_urls, i < s.all_discovered_urls.length) ∧
  (∀ p ∈ s.url_graph, p.1 ∈ s.visited_urls)

/-- A concrete two-URL session used to evaluate the crawl recovery path. -/
def crawlFailDemoState : SessionState :=
  initState [strL "http://a/x", strL "http://b/y"] ⟨[], 10000, 300, 5⟩

/-- The crawl batch over `crawlFailDemoState` in which fetching index 0
fails and fetching index 1 succeeds with one outbound link. -/
def crawlFailDemoRun : SessionState × Option (List Char) :=
  crawlPost crawlFailDemoState
    (crawlBatchResults crawlFailDemoState
      [.failure, .success (strL "hello") [strL "http://a/z"]])

/-! ## Helper lemmas -/

theorem addSet_self_mem (l : List Nat) (x : Nat) : x ∈ addSet l x := by
  unfold addSet
  split
  · exact List.mem_of_elem_eq_true (by assumption)
  · simp

theorem addSet_mono {l : List Nat} {x y : Nat} (h : y ∈ l) : y ∈ addSet l x := by
  unfold addSet
  split
  · exact h
  · simp [h]

theorem addSet_elim {l : List Nat} {x y : Nat} (h : y ∈ addSet l x) : y ∈ l ∨ y = x := by
  unfold addSet at h
  split at h
  · exact Or.inl h
  · simpa using h

theorem setAssoc_elim {α : Type} {m : List (Nat × α)} {k : Nat} {v : α} {p : Nat × α}
    (h : p ∈ setAssoc m k v) : p.1 = k ∨ p ∈ m := by
  induction m with
  | nil => simp [setAssoc] at h; simp [h]
  | cons q t ih =>
    unfold setAssoc at h
    split at h
    · rcases List.mem_cons.1 h with h1 | h1
      · simp [h1]
      · exact Or.inr (List.mem_cons_of_mem _ h1)
    · rcases List.mem_cons.1 h with h1 | h1
      · exact Or.inr (by simp [h1])
      · rcases ih h1 with h2 | h2
        · exact Or.inl h2
        · exact Or.inr (List.mem_cons_of_mem _ h2)

theorem registerLinks_len_le (reg : List (List Char)) (ls : List (List Char)) :
    reg.length ≤ (registerLinks reg ls).1.length := by
  induction ls generalizing reg with
  | nil => simp [registerLinks]
  | cons l t ih =>
    unfold registerLinks
    refine le_trans ?_ (ih _)
    split
    · exact le_refl _
    · simp

theorem zipWith_mem_imp {α β γ : Type} {f : α → β → γ} {c : γ} :
    ∀ {as : List α} {bs : List β}, c ∈ List.zipWith f as bs →
      ∃ a ∈ as, ∃ b ∈ bs, c = f a b := by
  intro as
  induction as with
  | nil => intro bs h; simp at h
  | cons a t ih =>
    intro bs h
    cases bs with
    | nil => simp at h
    | cons b bt =>
      rcases List.mem_cons.1 h with h1 | h1
      · exact ⟨a, by simp, b, by simp, h1⟩
      · rcases ih h1 with ⟨a2, ha2, b2, hb2, hc⟩
        exact ⟨a2, List.mem_cons_of_mem _ ha2, b2, List.mem_cons_of_mem _ hb2, hc⟩

theorem crawlPrep_idx_lt {s : SessionState} {p : Nat × List Char} (h : p ∈ crawlPrep s) :
    p.1 < s.all_discovered_urls.length := by
  rcases List.mem_filterMap.1 h with ⟨i, _, hi⟩
  by_cases hlt : i < s.all_discovered_urls.length
  · simp only [hlt, if_true, Option.some.injEq] at hi
    rw [← hi]
    exact hlt
  · simp [hlt] at hi

theorem crawlBatchResults_idx_lt {s : SessionState} {outs : List FetchOutcome}
    {it : Nat × List Char × Option (List (List Char))}
    (h : it ∈ crawlBatchResults s outs) : it.1 < s.all_discovered_urls.length := by
  rcases zipWith_mem_imp h with ⟨p, hp, o, _, hit⟩
  have := crawlPrep_idx_lt hp
  cases o <;> simp [hit, this]

theorem crawlProcessItem_err {s : SessionState} {it : Nat × List Char × Option (List (List Char))}
    {msg : List Char} {s2 : SessionState}
    (h : crawlProcessItem s it = .error (msg, s2)) :
    s2 = { s with url_content := setAssoc s.url_content it.1 (truncContent s.content_max_chars it.2.1),
                  visited_urls := addSet s.visited_urls it.1 } := by
  simp only [crawlProcessItem] at h
  split at h
  · simp only [Except.error.injEq, Prod.mk.injEq] at h
    exact h.2.symm
  · simp at h

theorem crawlProcessItem_ok_fields {s : SessionState}
    {it : Nat × List Char × Option (List (List Char))} {s2 : SessionState}
    (h : crawlProcessItem s it = .ok s2) :
    (∃ reg2 idxs, s2 = { s with
        url_content := setAssoc s.url_content it.1 (truncContent s.content_max_chars it.2.1),
        visited_urls := addSet s.visited_urls it.1,
        all_discovered_urls := reg2,
        url_graph := setAssoc s.url_graph it.1 idxs } ∧
      s.all_discovered_urls.length ≤ reg2.length) := by
  simp only [crawlProcessItem] at h
  split at h
  · simp at h
  · simp only [Except.ok.injEq] at h
    exact ⟨_, _, h.symm, registerLinks_len_le _ _⟩

theorem crawlProcessItem_inv {s : SessionState}
    {it : Nat × List Char × Option (List (List Char))}
    (hinv : SessionInv s) (hidx : it.1 < s.all_discovered_urls.length) :
    (∀ {s2 : SessionState}, crawlProcessItem s it = .ok s2 →
      SessionInv s2 ∧ s.all_discovered_urls.length ≤ s2.all_discovered_urls.length ∧
      s2.current_iteration = s.current_iteration ∧ s2.urls_to_process = s.urls_to_process) ∧
    (∀ {msg : List Char} {s2 : SessionState}, crawlProcessItem s it = .error (msg, s2) →
      SessionInv s2 ∧ s.all_discovered_urls.length ≤ s2.all_discovered_urls.length ∧
      s2.current_iteration = s.current_iteration ∧ s2.urls_to_process = s.urls_to_process) := by
  obtain ⟨hv, hg⟩ := hinv
  constructor
  · intro s2 h
    rcases crawlProcessItem_ok_fields h with ⟨reg2, idxs, hs2, hlen⟩
    subst hs2
    refine ⟨⟨?_, ?_⟩, hlen, rfl, rfl⟩
    · intro i hi
      rcases addSet_elim hi with h1 | h1
      · exact lt_of_lt_of_le (hv i h1) hlen
      · exact lt_of_lt_of_le (h1 ▸ hidx) hlen
    · intro p hp
      rcases setAssoc_elim hp with h1 | h1
      · exact h1 ▸ addSet_self_mem _ _
      · exact addSet_mono (hg p h1)
  · intro msg s2 h
    have hs2 := crawlProcessItem_err h
    subst hs2
    refine ⟨⟨?_, ?_⟩, le_refl _, rfl, rfl⟩
    · intro i hi
      rcases addSet_elim hi with h1 | h1
      · exact hv i h1
      · exact h1 ▸ hidx
    · intro p hp
      exact addSet_mono (hg p hp)

theorem crawlPostLoop_inv :
    ∀ (items : List (Nat × List Char × Option (List (List Char)))) (s : SessionState),
      SessionInv s → (∀ it ∈ items, it.1 < s.all_discovered_urls.length) →
      SessionInv (crawlPostLoop s items).1 ∧
      s.all_discovered_urls.length ≤ (crawlPostLoop s items).1.all_discovered_urls.length := by
  intro items
  induction items with
  | nil => intro s hinv _; exact ⟨hinv, le_refl _⟩
  | cons it t ih =>
    intro s hinv hidx
    unfold crawlPostLoop
    rcases hres : crawlProcessItem s it with s2 | s2
    · rcases s2 with ⟨msg, s2⟩
      have := (crawlProcessItem_inv hinv (hidx it (by simp))).2 hres
      exact ⟨this.1, this.2.1⟩
    · have hstep := (crawlProcessItem_inv hinv (hidx it (by simp))).1 hres
      have hrec := ih s2 hstep.1 (fun it2 hit2 =>
        lt_of_lt_of_le (hidx it2 (List.mem_cons_of_mem _ hit2)) hstep.2.1)
      exact ⟨hrec.1, le_trans hstep.2.1 hrec.2⟩

theorem crawlPostLoop_iter :
    ∀ (items : List (Nat × List Char × Option (List (List Char)))) (s : SessionState),
      (crawlPostLoop s items).1.current_iteration = s.current_iteration := by
  intro items
  induction items with
  | nil => intro s; rfl
  | cons it t ih =>
    intro s
    unfold crawlPostLoop
    rcases hres : crawlProcessItem s it with s2 | s2
    · rcases s2 with ⟨msg, s2⟩
      show s2.current_iteration = s.current_iteration
      rw [crawlProcessItem_err hres]
    · show (crawlPostLoop s2 t).1.current_iteration = s.current_iteration
      rcases crawlProcessItem_ok_fields hres with ⟨reg2, idxs, hs2, _⟩
      rw [ih s2, hs2]

theorem crawlPost_inv {s : SessionState} {items : List (Nat × List Char × Option (List (List Char)))}
    (hinv : SessionInv s) (hidx : ∀ it ∈ items, it.1 < s.all_discovered_urls.length) :
    SessionInv (crawlPost s items).1 := by
  have h := crawlPostLoop_inv items s hinv hidx
  unfold crawlPost
  rcases hloop : crawlPostLoop s items with ⟨s2, err⟩
  cases err with
  | none =>
    have h2 : SessionInv s2 := by rw [hloop] at h; exact h.1
    exact ⟨fun i hi => h2.1 i hi, fun p hp => h2.2 p hp⟩
  | some m => rw [hloop] at h; exact h.1

theorem crawlPost_iter (s : SessionState)
    (items : List (Nat × List Char × Option (List (List Char)))) :
    (crawlPost s items).1.current_iteration = s.current_iteration := by
  have h := crawlPostLoop_iter items s
  unfold crawlPost
  rcases hloop : crawlPostLoop s items with ⟨s2, err⟩
  cases err with
  | none => rw [hloop] at h; exact h
  | some m => rw [hloop] at h; exact h

theorem agentDecisionPost_fields (s : SessionState) (r : DecisionResult) :
    (agentDecisionPost s r).1.visited_urls = s.visited_urls ∧
    (agentDecisionPost s r).1.url_graph = s.url_graph ∧
    (agentDecisionPost s r).1.all_discovered_urls = s.all_discovered_urls := by
  unfold agentDecisionPost
  split
  · exact ⟨rfl, rfl, rfl⟩
  · split
    · exact ⟨rfl, rfl, rfl⟩
    · split
      · exact ⟨rfl, rfl, rfl⟩
      · exact ⟨rfl, rfl, rfl⟩

theorem agentDecisionPost_inv {s : SessionState} {r : DecisionResult}
    (hinv : SessionInv s) : SessionInv (agentDecisionPost s r).1 := by
  obtain ⟨h1, h2, h3⟩ := agentDecisionPost_fields s r
  exact ⟨fun i hi => h3 ▸ hinv.1 i (h1 ▸ hi), fun p hp => h1 ▸ hinv.2 p (h2 ▸ hp)⟩

theorem agentDecisionPost_iter (s : SessionState) (r : DecisionResult) :
    (agentDecisionPost s r).1.current_iteration =
      if r.decision = tagExplore then s.current_iteration + 1 else s.current_iteration := by
  unfold agentDecisionPost
  split
  · rename_i h
    have ha : r.decision = tagAnswer := by simpa using h
    rw [if_neg (show ¬ r.decision = tagExplore by rw [ha]; decide)]
  · split
    · rename_i h
      have he : r.decision = tagExplore := by simpa using h
      rw [if_pos he]
    · rename_i h1 h2
      have hne : ¬ r.decision = tagExplore := by simpa using h2
      rw [if_neg hne]
      split
      · rfl
      · rfl

theorem hasAdjWs_cons {a : Char} {t : List Char} (h : hasAdjWs (a :: t) = false) :
    hasAdjWs t = false := by
  cases t with
  | nil => rfl
  | cons b t2 =>
    unfold hasAdjWs at h
    simp only [Bool.or_eq_false_iff] at h
    exact h.2

theorem collapseWs_head_of_not_ws {b : Char} (t : List Char) (hb : isSpaceChar b = false) :
    ∃ r, collapseWs (b :: t) = b :: r := by
  cases t with
  | nil => exact ⟨[], by simp [collapseWs, hb]⟩
  | cons c t2 => exact ⟨collapseWs (c :: t2), by simp [collapseWs, hb]⟩

theorem hasAdjWs_collapseWs (l : List Char) : hasAdjWs (collapseWs l) = false := by
  induction l with
  | nil => rfl
  | cons a t ih =>
    cases t with
    | nil => unfold collapseWs; split <;> rfl
    | cons b t2 =>
      unfold collapseWs
      by_cases hab : (isSpaceChar a && isSpaceChar b) = true
      · rw [if_pos hab]; exact ih
      · rw [if_neg hab]
        by_cases hb : isSpaceChar b = true
        · have ha : isSpaceChar a = false := by
            cases hA : isSpaceChar a
            · rfl
            · exact absurd (by simp [hA, hb]) hab
          rw [if_neg (show ¬ isSpaceChar a = true by simp [ha])]
          rcases hcn : collapseWs (b :: t2) with _ | ⟨x, xs⟩
          · rfl
          · simp only [hasAdjWs, ha, Bool.false_and, Bool.false_or]
            rw [← hcn]
            exact ih
        · have hb' : isSpaceChar b = false := by
            cases hB : isSpaceChar b
            · rfl
            · exact absurd hB hb
          rcases collapseWs_head_of_not_ws t2 hb' with ⟨r, hr⟩
          rw [hr]
          simp only [hasAdjWs, hb', Bool.and_false, Bool.false_or]
          rw [← hr]
          exact ih

theorem hasAdjWs_dropWhile {l : List Char} (h : hasAdjWs l = false) :
    hasAdjWs (l.dropWhile isSpaceChar) = false := by
  induction l with
  | nil => simpa using h
  | cons a t ih =>
    rw [List.dropWhile_cons]
    split
    · exact ih (hasAdjWs_cons h)
    · exact h

theorem dropTrailingWs_cons_nil {a : Char} {t : List Char} (h : dropTrailingWs t = []) :
    dropTrailingWs (a :: t) = if isSpaceChar a then [] else [a] := by
  unfold dropTrailingWs
  rw [h]

theorem dropTrailingWs_cons_cons {a x : Char} {t xs : List Char}
    (h : dropTrailingWs t = x :: xs) : dropTrailingWs (a :: t) = a :: x :: xs := by
  unfold dropTrailingWs
  rw [h]

theorem dropTrailingWs_head {l : List Char} {c : Char}
    (h : (dropTrailingWs l).head? = some c) : l.head? = some c := by
  cases l with
  | nil => simp [dropTrailingWs] at h
  | cons a t =>
    rcases hr : dropTrailingWs t with _ | ⟨x, xs⟩
    · rw [dropTrailingWs_cons_nil hr] at h
      split at h
      · simp at h
      · have hac : a = c := by simpa using h
        simp [hac]
    · rw [dropTrailingWs_cons_cons hr] at h
      have hac : a = c := by simpa using h
      simp [hac]

theorem dropTrailingWs_getLast : ∀ {l : List Char} {c : Char},
    (dropTrailingWs l).getLast? = some c → isSpaceChar c = false := by
  intro l
  induction l with
  | nil => intro c h; simp [dropTrailingWs] at h
  | cons a t ih =>
    intro c h
    rcases hr : dropTrailingWs t with _ | ⟨x, xs⟩
    · rw [dropTrailingWs_cons_nil hr] at h
      split at h
      · simp at h
      · rename_i hns
        have hac : a = c := by simpa using h
        rw [← hac]
        cases hA : isSpaceChar a
        · rfl
        · exact absurd hA hns
    · rw [dropTrailingWs_cons_cons hr, List.getLast?_cons_cons, ← hr] at h
      exact ih h

theorem hasAdjWs_dropTrailingWs : ∀ {l : List Char}, hasAdjWs l = false →
    hasAdjWs (dropTrailingWs l) = false := by
  intro l
  induction l with
  | nil => intro h; exact h
  | cons a t ih =>
    intro h
    rcases hr : dropTrailingWs t with _ | ⟨x, xs⟩
    · rw [dropTrailingWs_cons_nil hr]
      split <;> rfl
    · rw [dropTrailingWs_cons_cons hr]
      have hx : t.head? = some x := dropTrailingWs_head (by rw [hr]; rfl)
      rcases t with _ | ⟨b, t2⟩
      · simp at hx
      · simp only [List.head?_cons, Option.some.injEq] at hx
        subst hx
        simp only [hasAdjWs, Bool.or_eq_false_iff] at h ⊢
        refine ⟨h.1, ?_⟩
        rw [← hr]
        exact ih h.2

theorem hasAdjWs_pyStrip {l : List Char} (h : hasAdjWs l = false) :
    hasAdjWs (pyStrip l) = false :=
  hasAdjWs_dropTrailingWs (hasAdjWs_dropWhile h)

theorem dropWhile_head_not_ws {l : List Char} {c : Char}
    (h : (l.dropWhile isSpaceChar).head? = some c) : isSpaceChar c = false := by
  induction l with
  | nil => simp at h
  | cons a t ih =>
    rw [List.dropWhile_cons] at h
    split at h
    · exact ih h
    · rename_i hns
      simp only [List.head?_cons, Option.some.injEq] at h
      rw [← h]
      cases hA : isSpaceChar a
      · rfl
      · exact absurd hA hns

theorem pyStrip_head_not_ws {l : List Char} {c : Char}
    (h : (pyStrip l).head? = some c) : isSpaceChar c = false :=
  dropWhile_head_not_ws (dropTrailingWs_head h)

theorem pyStrip_getLast_not_ws {l : List Char} {c : Char}
    (h : (pyStrip l).getLast? = some c) : isSpaceChar c = false :=
  dropTrailingWs_getLast h

theorem dropTrailingWs_idem : ∀ l : List Char,
    dropTrailingWs (dropTrailingWs l) = dropTrailingWs l := by
  intro l
  induction l with
  | nil => rfl
  | cons a t ih =>
    rcases hr : dropTrailingWs t with _ | ⟨x, xs⟩
    · rw [dropTrailingWs_cons_nil hr]
      split
      · rfl
      · rename_i hns
        rw [dropTrailingWs_cons_nil (show dropTrailingWs [] = [] from rfl), if_neg hns]
    · rw [dropTrailingWs_cons_cons hr]
      have h2 : dropTrailingWs (x :: xs) = x :: xs := by rw [← hr]; exact ih
      rw [dropTrailingWs_cons_cons h2]

theorem dropWhile_eq_self_of_head {l : List Char}
    (h : ∀ c, l.head? = some c → isSpaceChar c = false) :
    l.dropWhile isSpaceChar = l := by
  cases l with
  | nil => rfl
  | cons a t =>
    rw [List.dropWhile_cons, if_neg (by simp [h a rfl])]

theorem pyStrip_idem (l : List Char) : pyStrip (pyStrip l) = pyStrip l := by
  have h1 : (pyStrip l).dropWhile isSpaceChar = pyStrip l :=
    dropWhile_eq_self_of_head (fun c hc => pyStrip_head_not_ws hc)
  show dropTrailingWs ((pyStrip l).dropWhile isSpaceChar) = pyStrip l
  rw [h1]
  show dropTrailingWs (dropTrailingWs (l.dropWhile isSpaceChar)) = pyStrip l
  rw [dropTrailingWs_idem]
  rfl

theorem detectLoop_no_hits : ∀ (wl : List (List Char)) (text cleaned : List Char),
    (detectLoop text wl cleaned).1 = [] → (detectLoop text wl cleaned).2 = cleaned := by
  intro wl
  induction wl with
  | nil => intro text cleaned _; rfl
  | cons w t ih =>
    intro text cleaned h
    simp only [detectLoop] at h ⊢
    by_cases hn : countWord w text = 0
    · rw [if_pos hn] at h ⊢
      exact ih text cleaned h
    · rw [if_neg hn] at h
      exfalso
      simp only [List.append_eq_nil, List.replicate_eq_nil_iff] at h
      exact hn h.1

theorem importScan_mem : ∀ {lines : List (List Char)} {d : List Char},
    importScan lines = some d → d ∈ dangerous_imports := by
  intro lines
  induction lines with
  | nil => intro d h; simp [importScan] at h
  | cons ln t ih =>
    intro d h
    unfold importScan at h
    rcases hs : scanImportLine ln with _ | d2 <;> rw [hs] at h
    · exact ih h
    · simp only [Option.some.injEq] at h
      rw [← h]
      simp only [scanImportLine] at hs
      split at hs
      · exact List.mem_of_find?_eq_some hs
      · simp at hs

theorem importScan_none : ∀ {lines : List (List Char)},
    importScan lines = none → ∀ ln ∈ lines, scanImportLine ln = none := by
  intro lines
  induction lines with
  | nil => intro _ ln h; simp at h
  | cons l0 t ih =>
    intro h ln hln
    unfold importScan at h
    rcases hs : scanImportLine l0 with _ | d2 <;> rw [hs] at h
    · rcases List.mem_cons.1 hln with h1 | h1
      · rw [h1]; exact hs
      · exact ih h ln h1
    · simp at h

theorem validateSelected_eq_filter (raw : List Int) (allowed : List Nat) :
    validateSelected raw allowed =
      (raw.filter (fun i => (allowed.map (fun n => (n : Int))).contains i)).map Int.toNat := by
  induction raw with
  | nil => rfl
  | cons i t ih =>
    unfold validateSelected
    by_cases hc : ((allowed.map (fun n => (n : Int))).contains i) = true
    · rw [if_pos hc, List.filter_cons_of_pos (by exact hc), List.map_cons, ih]
    · rw [if_neg hc, List.filter_cons_of_neg (by exact hc), ih]

theorem fenceStage1_of_tickMd {s : List Char} (h : lstarts s (strL "```markdown") = true) :
    fenceStage1 s =
      if lends (s.drop (strL "```markdown").length) (strL "```")
      then (s.drop (strL "```markdown").length).take
        ((s.drop (strL "```markdown").length).length - 3)
      else s.drop (strL "```markdown").length := by
  unfold fenceStage1
  rw [if_pos h]

theorem fenceStage1_none {s : List Char} (h1 : lstarts s (strL "```markdown") = false)
    (h2 : lstarts s (strL "~~~markdown") = false) : fenceStage1 s = s := by
  unfold fenceStage1
  rw [if_neg (by simp [h1]), if_neg (by simp [h2])]

theorem fenceStage2_none {s : List Char} (h1 : lstarts s (strL "````markdown") = false)
    (h2 : lstarts s (strL "```") = false) (h3 : lstarts s (strL "~~~") = false) :
    fenceStage2 s = s := by
  unfold fenceStage2
  rw [if_neg (by simp [h1]), if_neg (by simp [h2]), if_neg (by simp [h3])]

/-! ## Claim theorems -/

/-- C1: the claim that a failed crawl item is recovered per-item (placeholder
content, visited mark, empty graph entry, rest of the batch unaffected) does
not hold of the code.  Evaluated at a concrete batch whose first fetch
failed, the embedded `CrawlAndExtract.post` hands the fallback's `None`
links to `filter_valid_urls`, which raises a `TypeError`: the failed index
is left visited with the placeholder content but no graph entry at all, the
second (successful) item is never processed, and the pending-crawl list is
not cleared. -/
theorem C1_crawl_failure_not_recovered :
    crawlFailDemoRun.2 = some (strL "TypeError: NoneType object is not iterable") ∧
    crawlFailDemoRun.1.visited_urls = [0] ∧
    getAssoc crawlFailDemoRun.1.url_content 0 = some (strL "Error crawling page") ∧
    getAssoc crawlFailDemoRun.1.url_graph 0 = none ∧
    crawlFailDemoRun.1.urls_to_process = [0, 1] ∧
    crawlFailDemoRun.1.all_discovered_urls.length = 2 := by decide

/-- C2: every oracle-call failure seen by the Decision Engine — the call
raising, an unparseable reply, an unknown decision tag, or an explore
decision whose validated index list is empty — is replaced by the fixed
fallback decision (tag `answer`, empty selection, fixed reasoning string),
and the fallback decision drives `post` to the terminal `answer`
transition. -/
theorem C2_oracle_failure_fallback :
    (∀ (p : PrepData) (m : List Char),
      agentExecWithFallback p (.callError m) = agentDecisionFallback) ∧
    (∀ (p : PrepData) (m : List Char),
      agentExecWithFallback p (.unparseable m) = agentDecisionFallback) ∧
    (∀ (p : PrepData) (d : List Char) (r : Option (List Char)) (sel : Option (List Int)),
      ¬ d ∈ [tagAnswer, tagExplore, tagExec] →
      agentExecWithFallback p (.parsed (some d) r sel) = agentDecisionFallback) ∧
    (∀ (p : PrepData) (r : Option (List Char)) (sel : Option (List Int)),
      validateExplore (sel.getD []) p.max_urls_per_iteration p.unvisited_indices = [] →
      agentExecWithFallback p (.parsed (some tagExplore) r sel) = agentDecisionFallback) ∧
    (∀ s : SessionState, (agentDecisionPost s agentDecisionFallback).2 = some tagAnswer) := by
  refine ⟨fun p m => rfl, fun p m => rfl, ?_, ?_, fun s => rfl⟩
  · intro p d r sel h
    simp only [List.mem_cons, List.not_mem_nil, or_false, not_or] at h
    obtain ⟨e1, e2, e3⟩ := h
    simp [agentExecWithFallback, agentDecisionExec, e1, e2, e3]
  · intro p r sel h
    have hc : ([tagAnswer, tagExplore, tagExec].contains tagExplore) = true := by decide
    simp [agentExecWithFallback, agentDecisionExec, hc, h]

/-- C2 witness: the fallback replacement evaluated at a concrete failing
call, a concrete unknown tag and a concrete empty-validation explore. -/
theorem C2_witness :
    agentExecWithFallback ⟨[], [], 5⟩ (.callError (strL "boom")) = agentDecisionFallback ∧
    agentExecWithFallback ⟨[], [], 5⟩ (.parsed (some (strL "banana")) none none) =
      agentDecisionFallback ∧
    agentExecWithFallback ⟨[1, 3], [], 1⟩ (.parsed (some tagExplore) none (some [5, 1])) =
      agentDecisionFallback :=
  ⟨C2_oracle_failure_fallback.1 _ _,
   C2_oracle_failure_fallback.2.2.1 _ _ _ _ (by decide),
   C2_oracle_failure_fallback.2.2.2.1 _ _ _ (by decide)⟩

/-- C3: explore validation takes the first `max_urls_per_iteration` raw
candidates in the order given and only then filters by the unvisited set;
an empty result is a hard validation error; and on raw candidates `[5, 1]`
with unvisited `{1, 3}` and cap `1` the validated list is empty and the
decision falls back, even though candidate `1` alone would have been
valid. -/
theorem C3_explore_cap_before_filter :
    (∀ (raw : List Int) (cap : Nat) (unvisited : List Nat),
      validateExplore raw cap unvisited =
        ((raw.take cap).filter
          (fun i => (unvisited.map (fun n => (n : Int))).contains i)).map Int.toNat) ∧
    (∀ (p : PrepData) (r : Option (List Char)) (sel : Option (List Int)),
      validateExplore (sel.getD []) p.max_urls_per_iteration p.unvisited_indices = [] →
      agentDecisionExec p (.parsed (some tagExplore) r sel) =
        .error (strL "Explore decision made, but no valid URLs were selected to process.")) ∧
    validateExplore [5, 1] 1 [1, 3] = [] ∧
    ((1 : Int) ∈ ([1, 3] : List Nat).map (fun n => (n : Int))) ∧
    agentExecWithFallback ⟨[1, 3], [], 1⟩ (.parsed (some tagExplore) none (some [5, 1])) =
      agentDecisionFallback := by
  refine ⟨?_, ?_, by decide, by decide, by decide⟩
  · intro raw cap unvisited
    unfold validateExplore
    exact validateSelected_eq_filter _ _
  · intro p r sel h
    have hc : ([tagAnswer, tagExplore, tagExec].contains tagExplore) = true := by decide
    simp [agentDecisionExec, hc, h]

/-- C3 witness: the hard validation error evaluated at the concrete
ordering example of the claim. -/
theorem C3_witness :
    agentDecisionExec ⟨[1, 3], [], 1⟩ (.parsed (some tagExplore) none (some [5, 1])) =
      .error (strL "Explore decision made, but no valid URLs were selected to process.") :=
  C3_explore_cap_before_filter.2.1 _ _ _ (by decide)

/-- C4: every command rejected by `is_command_safe` yields the fixed
refusal result — success `false`, stderr naming the rejection reason,
return code `-1`, zero execution time — without the subprocess collaborator
being invoked, for every possible subprocess behaviour; in particular
`"sudo rm -rf /"` is rejected with the `rm` deny-list pattern as the
reason. -/
theorem C4_blocked_command_rejected (ex : ShellExecutor) (outcome : ProcOutcome)
    (command : List Char) (h : (is_command_safe command).1 = false) :
    execute_shell_command ex outcome command =
      { result := { success := false, stdout := [],
                    stderr := strL "Command blocked for security: " ++ (is_command_safe command).2,
                    return_code := -1, execution_time := 0 },
        signals := [], spawned := false } ∧
    (is_command_safe (strL "sudo rm -rf /")).1 = false ∧
    (is_command_safe (strL "sudo rm -rf /")).2 =
      strL "Blocked dangerous pattern: \\brm\\s+(-rf\\s+)?/" := by
  refine ⟨?_, by decide, by decide⟩
  simp [execute_shell_command, h]

/-- C4 witness: the rejection evaluated at `"sudo rm -rf /"`. -/
theorem C4_witness :
    execute_shell_command ⟨30, 10000⟩ (.completed [] [] 0 0) (strL "sudo rm -rf /") =
      { result := { success := false, stdout := [],
                    stderr := strL "Command blocked for security: "
                      ++ (is_command_safe (strL "sudo rm -rf /")).2,
                    return_code := -1, execution_time := 0 },
        signals := [], spawned := false } :=
  (C4_blocked_command_rejected ⟨30, 10000⟩ (.completed [] [] 0 0)
    (strL "sudo rm -rf /") (by decide)).1

/-- C5: for every accepted command whose process exceeds the timeout, the
process group receives SIGTERM first; if it exits during the grace period
no further signal is sent, and if it is still alive it receives SIGKILL;
either way the result reports success `false` and return code `-1`. -/
theorem C5_timeout_kill_sequence (ex : ShellExecutor) (command : List Char)
    (out err : List Char) (t : Nat) (h : (is_command_safe command).1 = true) :
    (execute_shell_command ex (.timeoutExit out err t) command).result.success = false ∧
    (execute_shell_command ex (.timeoutExit out err t) command).result.return_code = -1 ∧
    (execute_shell_command ex (.timeoutExit out err t) command).signals = [.sigterm] ∧
    (execute_shell_command ex (.timeoutExit out err t) command).spawned = true ∧
    (execute_shell_command ex (.timeoutKilled t) command).result.success = false ∧
    (execute_shell_command ex (.timeoutKilled t) command).result.return_code = -1 ∧
    (execute_shell_command ex (.timeoutKilled t) command).signals = [.sigterm, .sigkill] ∧
    (execute_shell_command ex (.timeoutKilled t) command).spawned = true := by
  have hne : ((-1 : Int) == 0) = false := by decide
  simp [execute_shell_command, h, mkShellResult, hne]

/-- C5 witness: the timeout handling evaluated at the accepted command
`"sleep 60"`. -/
theorem C5_witness :
    (execute_shell_command ⟨2, 10000⟩ (.timeoutExit [] [] 3) (strL "sleep 60")).result.return_code = -1 ∧
    (execute_shell_command ⟨2, 10000⟩ (.timeoutKilled 3) (strL "sleep 60")).signals =
      [.sigterm, .sigkill] :=
  ⟨(C5_timeout_kill_sequence ⟨2, 10000⟩ (strL "sleep 60") [] [] 3 (by decide)).2.1,
   (C5_timeout_kill_sequence ⟨2, 10000⟩ (strL "sleep 60") [] [] 3 (by decide)).2.2.2.2.2.2.1⟩

/-- C6: every script containing an `import `/`from ` line (after
stripping) in which a deny-listed module name occurs is rejected before
the subprocess collaborator is consulted, with the fixed refusal result
whose stderr names a deny-listed module. -/
theorem C6_dangerous_import_blocked (ex : ShellExecutor) (tempFile : List Char)
    (outcome : ProcOutcome) (code : List Char)
    (h : ∃ ln ∈ pySplitNl code,
      (lstarts (pyStrip ln) (strL "import ") || lstarts (pyStrip ln) (strL "from ")) = true ∧
      ∃ d ∈ dangerous_imports, lcontains (pyStrip ln) d = true) :
    ∃ d ∈ dangerous_imports,
      execute_python_code ex tempFile outcome code =
        { result := { success := false, stdout := [],
                      stderr := strL "Dangerous import blocked: " ++ d,
                      return_code := -1, execution_time := 0 },
          signals := [], spawned := false } := by
  rcases hscan : importScan (pySplitNl code) with _ | d
  · exfalso
    rcases h with ⟨ln, hln, hstart, d, hd, hcont⟩
    have hnone := importScan_none hscan ln hln
    simp only [scanImportLine, hstart, if_true] at hnone
    exact absurd hcont (by simpa using List.find?_eq_none.mp hnone d hd)
  · exact ⟨d, importScan_mem hscan, by simp [execute_python_code, hscan]⟩

/-- C6 witness: the import scan evaluated at a concrete script importing
`os`. -/
theorem C6_witness :
    ∃ d ∈ dangerous_imports,
      execute_python_code ⟨30, 10000⟩ (strL "/tmp/t.py") (.completed [] [] 0 0)
          (strL "import os\nprint(1)") =
        { result := { success := false, stdout := [],
                      stderr := strL "Dangerous import blocked: " ++ d,
                      return_code := -1, execution_time := 0 },
          signals := [], spawned := false } :=
  C6_dangerous_import_blocked ⟨30, 10000⟩ (strL "/tmp/t.py") (.completed [] [] 0 0)
    (strL "import os\nprint(1)")
    ⟨strL "import os", by decide, by decide, strL "os", by decide, by decide⟩

/-- C9: every language other than python / bash / shell / sh
(case-insensitively) makes `execute_code` return the fixed unsupported
result — success `false`, empty stdout, stderr naming the language, return
code `-1`, zero execution time — without invoking either executor. -/
theorem C9_unsupported_language (timeout : Nat) (tempFile : List Char) (outcome : ProcOutcome)
    (code language : List Char)
    (h : ¬ lowerL language ∈ [strL "python", strL "bash", strL "shell", strL "sh"]) :
    execute_code timeout tempFile outcome code language =
      { result := { success := false, stdout := [],
                    stderr := strL "Unsupported language: " ++ language,
                    return_code := -1, execution_time := 0 },
        signals := [], spawned := false } := by
  simp only [List.mem_cons, List.not_mem_nil, or_false, not_or] at h
  obtain ⟨h1, h2, h3, h4⟩ := h
  simp [execute_code, h1, h2, h3, h4]

/-- C9 witness: the unsupported-language result evaluated at `"ruby"`. -/
theorem C9_witness :
    execute_code 30 (strL "/tmp/t.py") (.completed [] [] 0 0) (strL "puts 1") (strL "ruby") =
      { result := { success := false, stdout := [],
                    stderr := strL "Unsupported language: " ++ strL "ruby",
                    return_code := -1, execution_time := 0 },
        signals := [], spawned := false } :=
  C9_unsupported_language 30 (strL "/tmp/t.py") (.completed [] [] 0 0) (strL "puts 1")
    (strL "ruby") (by decide)

/-- C8: in every reachable session state the visited set is contained in
the registered index range and every graph key is visited; the iteration
counter is preserved by every crawl batch (completed or aborted) and is
incremented by a decision transition exactly when the validated (or
fallback) decision is `explore`. -/
theorem C8_session_invariants :
    (∀ s, Reachable s → SessionInv s) ∧
    (∀ (s : SessionState) (items : List (Nat × List Char × Option (List (List Char)))),
      (crawlPost s items).1.current_iteration = s.current_iteration) ∧
    (∀ (s : SessionState) (o : OracleOutcome),
      (agentDecisionPost s (agentExecWithFallback (agentPrepOf s) o)).1.current_iteration =
        if (agentExecWithFallback (agentPrepOf s) o).decision = tagExplore
        then s.current_iteration + 1 else s.current_iteration) := by
  refine ⟨?_, fun s items => crawlPost_iter s items, fun s o => agentDecisionPost_iter s _⟩
  intro s h
  induction h with
  | init start_urls cfg =>
    constructor
    · intro i hi
      simp [initState] at hi
    · intro p hp
      simp [initState] at hp
  | crawl s outs hs ih =>
    exact crawlPost_inv ih (fun it hit => crawlBatchResults_idx_lt hit)
  | agent s o hs ih => exact agentDecisionPost_inv ih
  | reset s hs ih => exact ⟨fun i hi => ih.1 i hi, fun p hp => ih.2 p hp⟩

/-- C8 witness: the invariant discharged at a concrete initial state. -/
theorem C8_witness :
    SessionInv (initState [strL "http://a/x"] ⟨[], 10000, 300, 5⟩) :=
  C8_session_invariants.1 _ (Reachable.init _ _)

/-- C7 counterexample: the claim that a fence is removed only when it
wraps the entire trimmed reply fails — a reply opening with a markdown
fence but lacking the closing marker still loses the opening fence (first
two conjuncts: the output differs from the merely-trimmed reply); and a
reply fully wrapped in a common 4-tilde fence keeps one tilde on each side
instead of having the wrapping pair stripped. -/
theorem C7_counterexample :
    draftAnswerStrip (strL "```markdown\nhello") = strL "hello" ∧
    pyStrip (strL "```markdown\nhello") = strL "```markdown\nhello" ∧
    strL "hello" ≠ strL "```markdown\nhello" ∧
    draftAnswerStrip (strL "~~~~hi~~~~") = strL "~hi~" ∧
    strL "~hi~" ≠ strL "hi" := by decide

/-- C7 (amended): the synthesizer handles five fence families, checked in
two chains (```markdown and ~~~markdown first; then ````markdown, ```,
~~~ on the result).  A reply whose trimmed text starts with no handled
opener is returned unchanged apart from whitespace trimming; when the
trimmed reply starts with the ```markdown opener the leading marker is
always stripped, the matching trailing marker is stripped exactly when the
remainder ends with it, and the result is trimmed (so a fully wrapped
reply loses the fence pair, and a reply with only the leading marker loses
just that marker). -/
theorem C7_fence_stripping_amended :
    (∀ answer : List Char,
      lstarts (pyStrip answer) (strL "```markdown") = false →
      lstarts (pyStrip answer) (strL "~~~markdown") = false →
      lstarts (pyStrip answer) (strL "````markdown") = false →
      lstarts (pyStrip answer) (strL "```") = false →
      lstarts (pyStrip answer) (strL "~~~") = false →
      draftAnswerStrip answer = pyStrip answer) ∧
    (∀ answer s1 m : List Char,
      s1 = (pyStrip answer).drop (strL "```markdown").length →
      lstarts (pyStrip answer) (strL "```markdown") = true →
      lends s1 (strL "```") = true →
      m = s1.take (s1.length - 3) →
      lstarts m (strL "````markdown") = false →
      lstarts m (strL "```") = false →
      lstarts m (strL "~~~") = false →
      draftAnswerStrip answer = pyStrip m) ∧
    (∀ answer s1 : List Char,
      s1 = (pyStrip answer).drop (strL "```markdown").length →
      lstarts (pyStrip answer) (strL "```markdown") = true →
      lends s1 (strL "```") = false →
      lstarts s1 (strL "````markdown") = false →
      lstarts s1 (strL "```") = false →
      lstarts s1 (strL "~~~") = false →
      draftAnswerStrip answer = pyStrip s1) := by
  refine ⟨?_, ?_, ?_⟩
  · intro a h1 h2 h3 h4 h5
    show pyStrip (fenceStage2 (fenceStage1 (pyStrip a))) = pyStrip a
    rw [fenceStage1_none h1 h2, fenceStage2_none h3 h4 h5, pyStrip_idem]
  · intro a s1 m hs1 h1 h2 hm h3 h4 h5
    show pyStrip (fenceStage2 (fenceStage1 (pyStrip a))) = pyStrip m
    rw [fenceStage1_of_tickMd h1, ← hs1, if_pos h2, ← hm, fenceStage2_none h3 h4 h5]
  · intro a s1 hs1 h1 h2 h3 h4 h5
    show pyStrip (fenceStage2 (fenceStage1 (pyStrip a))) = pyStrip s1
    rw [fenceStage1_of_tickMd h1, ← hs1, if_neg (by simp [h2]), fenceStage2_none h3 h4 h5]

/-- C7 witness: the amended behaviour evaluated at a fence-free reply, a
fully wrapped reply and a leading-marker-only reply. -/
theorem C7_witness :
    draftAnswerStrip (strL "hello world") = pyStrip (strL "hello world") ∧
    draftAnswerStrip (strL "```markdown\nhi\n```") =
      pyStrip (((pyStrip (strL "```markdown\nhi\n```")).drop (strL "```markdown").length).take
        (((pyStrip (strL "```markdown\nhi\n```")).drop (strL "```markdown").length).length - 3)) ∧
    draftAnswerStrip (strL "```markdown\nhi") =
      pyStrip ((pyStrip (strL "```markdown\nhi")).drop (strL "```markdown").length) :=
  ⟨C7_fence_stripping_amended.1 _ (by decide) (by decide) (by decide) (by decide) (by decide),
   C7_fence_stripping_amended.2.1 _ _ _ rfl (by decide) (by decide) rfl
     (by decide) (by decide) (by decide),
   C7_fence_stripping_amended.2.2 _ _ rfl (by decide) (by decide)
     (by decide) (by decide) (by decide)⟩

/-- C10: the intent detector's cleaned text is always whitespace
normalised — no two adjacent whitespace characters survive and no leading
or trailing whitespace remains — even when no trigger token matched; hence
a trigger-free input containing consecutive whitespace always differs from
its cleaned text. -/
theorem C10_cleaned_text_normalized :
    (∀ text : List Char,
      hasAdjWs (detect_magic_words text).2.2 = false ∧
      (∀ c, (detect_magic_words text).2.2.head? = some c → isSpaceChar c = false) ∧
      (∀ c, (detect_magic_words text).2.2.getLast? = some c → isSpaceChar c = false)) ∧
    (∀ text : List Char, (detect_magic_words text).1 = false → hasAdjWs text = true →
      (detect_magic_words text).2.2 ≠ text) := by
  have hform : ∀ text : List Char, (detect_magic_words text).2.2 =
      pyStrip (collapseWs (detectLoop text magic_words text).2) := fun _ => rfl
  constructor
  · intro text
    rw [hform]
    exact ⟨hasAdjWs_pyStrip (hasAdjWs_collapseWs _),
           fun c hc => pyStrip_head_not_ws hc,
           fun c hc => pyStrip_getLast_not_ws hc⟩
  · intro text hflag hadj
    have h2 : (!(detectLoop text magic_words text).1.isEmpty) = false := hflag
    simp only [Bool.not_eq_false] at h2
    have hnil : (detectLoop text magic_words text).1 = [] := by
      cases hl : (detectLoop text magic_words text).1
      · rfl
      · rw [hl] at h2; simp at h2
    have hcl : (detectLoop text magic_words text).2 = text :=
      detectLoop_no_hits _ _ _ hnil
    rw [hform, hcl]
    intro heq
    have hfalse : hasAdjWs text = false := by
      rw [← heq]
      exact hasAdjWs_pyStrip (hasAdjWs_collapseWs text)
    rw [hfalse] at hadj
    exact Bool.false_ne_true hadj

/-- C10 witness: the difference discharged at the trigger-free input
`"hello   world"`. -/
theorem C10_witness :
    (detect_magic_words (strL "hello   world")).1 = false ∧
    hasAdjWs (strL "hello   world") = true ∧
    (detect_magic_words (strL "hello   world")).2.2 ≠ strL "hello   world" :=
  ⟨by decide, by decide,
   C10_cleaned_text_normalized.2 _ (by decide) (by decide)⟩

end PF
